import Mathlib

/-!
Verification of `PipeCopy.c`: a program that copies a file through a pipe
using three processes (a supervising parent and two forked workers).

The embedding models each process's run of `main` as a trace of externally
visible actions (pipe-endpoint closes, file open/close, prints, waits)
together with the process exit code.  The environment record `Env` fixes the
outcome of every system call the process performs (pipe creation, the fork
values seen by this process, file opens, the stream of `read` results, and
the two `wait` results), so `mainImpl` is a pure function of `Env`.
`copy` models the block-copy loop of the C function of the same name.
-/

namespace PipeCopy

/-- Size of the data blocks copied in bytes (`#define BLOCK_SIZE 1024`). -/
def BLOCK_SIZE : Nat := 1024

/-- Outcome of one `read(src, buffer, BLOCK_SIZE)` call:
`ok bytes` is a successful read returning `bytes.length` bytes (`ok []` is
end of stream), `err e` is a failed read returning the negative value `e`. -/
inductive ReadResult where
  | ok (bytes : List Nat)
  | err (e : Int)
deriving DecidableEq

/-- Result of a terminating run of `copy`: the value returned
(the last `read` result), the progress notifications printed
(`[pid] n bytes copied...` carries the tag and the byte count), and the
blocks written to the destination, in order. -/
structure CopyResult where
  retval : Int
  notifs : List (Nat × Nat)
  written : List (List Nat)
deriving DecidableEq

/-- The C `copy` function: `while((read_count = read(...)) > 0) { print; write }`
followed by `return read_count`.  The list argument is the sequence of `read`
outcomes the source yields.  `none` marks inputs no real run can produce: the
stream ends before a terminal (zero or negative) read, a successful read
longer than `BLOCK_SIZE`, or an "error" read with a positive return value. -/
def copy (pid : Nat) : List ReadResult → Option CopyResult
  | [] => none
  | ReadResult.ok bytes :: rs =>
    if 0 < bytes.length then
      if bytes.length ≤ BLOCK_SIZE then
        (copy pid rs).map fun res =>
          ⟨res.retval, (pid, bytes.length) :: res.notifs, bytes :: res.written⟩
      else none
    else
      some ⟨0, [], []⟩
  | ReadResult.err e :: _ =>
    if 0 < e then none else some ⟨e, [], []⟩

/-- The two endpoints of the pipe: `fd[0]` is the read end, `fd[1]` the
write end. -/
inductive PipeEnd where
  | readEnd
  | writeEnd
deriving DecidableEq

/-- The messages the program prints, one constructor per `printf`/`fprintf`
in the source. -/
inductive Msg where
  | pipeFail
  | forkFail
  | progress (pid count : Nat)
  | openSrcFail (file err : String)
  | openDestFail (file err : String)
  | copyFail (err : String)
  | childOk (n : Nat)
  | childBad (n : Nat) (status : Nat)
  | allOk
  | someBad
deriving DecidableEq

/-- Externally visible actions of one process, in program order. -/
inductive Action where
  | closePipe (e : PipeEnd)
  | openSrc
  | openDest
  | closeFile
  | print (m : Msg)
  | wait
deriving DecidableEq

/-- Environment of one process: the outcome of every system call it may
perform.  Fields, in order: whether `pipe` succeeded; the value of `child_1`
(the first `fork`) as seen by this process; the value the second `fork`
returns in this process if it executes it; the two command-line paths; the
result of opening the source (resp. destination) file, `none` for success and
`some err` for failure with error text `err`; the `read` outcomes this
process's `copy` loop sees; the `strerror` text after a failed copy; and the
two `(pid, raw status)` results of `wait`. -/
structure Env where
  pipeOk : Bool
  fork1 : Int
  fork2 : Int
  srcPath : String
  destPath : String
  srcOpen : Option String
  destOpen : Option String
  reads : List ReadResult
  copyErr : String
  wait1 : Int × Nat
  wait2 : Int × Nat

/-- `WEXITSTATUS`: bits 8..15 of the raw wait status. -/
def wexitstatus (s : Nat) : Nat := s / 256 % 256

/-- One iteration of the supervisor's wait loop: the message printed for the
reaped child and whether the error flag is set.  The child number is 1 when
the reaped pid equals `child_1`, else 2. -/
def reapMsg (child1 : Int) (w : Int × Nat) : Msg × Bool :=
  let status := wexitstatus w.2
  let n : Nat := if child1 = w.1 then 1 else 2
  if status = 0 then (Msg.childOk n, false) else (Msg.childBad n status, true)

/-- The parent's block (`child_2 > 0`): close both pipe ends, wait twice,
print a per-child line each time, then print the aggregate line and return
0 or 2. -/
def supervisorBody (child1 : Int) (w1 w2 : Int × Nat) : List Action × Nat :=
  let r1 := reapMsg child1 w1
  let r2 := reapMsg child1 w2
  let error := r1.2 || r2.2
  ([Action.closePipe PipeEnd.readEnd, Action.closePipe PipeEnd.writeEnd,
    Action.wait, Action.print r1.1, Action.wait, Action.print r2.1] ++
    (if error then [Action.print Msg.someBad] else [Action.print Msg.allOk]),
   if error then 2 else 0)

/-- The progress lines a completed `copy` printed, in order. -/
def progressActions (res : CopyResult) : List Action :=
  res.notifs.map fun nc => Action.print (Msg.progress nc.1 nc.2)

/-- Child 1's block (`child_1 == 0`): close the read end, open the source
file (exit 1 on failure after printing and closing the write end), copy
file → pipe (exit 2 on negative result), then close both handles and
exit 0. -/
def readerBody (env : Env) : Option (List Action × Nat) :=
  match env.srcOpen with
  | some e =>
    some ([Action.closePipe PipeEnd.readEnd,
           Action.print (Msg.openSrcFail env.srcPath e),
           Action.closePipe PipeEnd.writeEnd], 1)
  | none =>
    match copy 1 env.reads with
    | none => none
    | some res =>
      if res.retval < 0 then
        some ([Action.closePipe PipeEnd.readEnd, Action.openSrc] ++
              progressActions res ++
              [Action.print (Msg.copyFail env.copyErr), Action.closeFile,
               Action.closePipe PipeEnd.writeEnd], 2)
      else
        some ([Action.closePipe PipeEnd.readEnd, Action.openSrc] ++
              progressActions res ++
              [Action.closeFile, Action.closePipe PipeEnd.writeEnd], 0)

/-- Child 2's block (`child_2 == 0`): close the write end, open the
destination file (exit 1 on failure after printing and closing the read
end), copy pipe → file (exit 2 on negative result), then close both handles
and exit 0. -/
def writerBody (env : Env) : Option (List Action × Nat) :=
  match env.destOpen with
  | some e =>
    some ([Action.closePipe PipeEnd.writeEnd,
           Action.print (Msg.openDestFail env.destPath e),
           Action.closePipe PipeEnd.readEnd], 1)
  | none =>
    match copy 2 env.reads with
    | none => none
    | some res =>
      if res.retval < 0 then
        some ([Action.closePipe PipeEnd.writeEnd, Action.openDest] ++
              progressActions res ++
              [Action.print (Msg.copyFail env.copyErr), Action.closeFile,
               Action.closePipe PipeEnd.readEnd], 2)
      else
        some ([Action.closePipe PipeEnd.writeEnd, Action.openDest] ++
              progressActions res ++
              [Action.closeFile, Action.closePipe PipeEnd.readEnd], 0)

/-- The C `main`, as executed by one process: branch on the pipe result,
then on `child_2 > 0` (parent of both), `child_1 == 0` (child 1),
`child_2 == 0` (child 2), and finally `child_1 < 0 || child_2 < 0` (the fork
error handler).  `child_2` is initialized to 0 and assigned the second fork's
value only when `child_1 > 0`, exactly as in the source. -/
def mainImpl (env : Env) : Option (List Action × Nat) :=
  if env.pipeOk = false then
    some ([Action.print Msg.pipeFail], 1)
  else
    let child1 := env.fork1
    let child2 : Int := if 0 < child1 then env.fork2 else 0
    if 0 < child2 then
      some (supervisorBody child1 env.wait1 env.wait2)
    else if child1 = 0 then
      readerBody env
    else if child2 = 0 then
      writerBody env
    else if child1 < 0 ∨ child2 < 0 then
      some ([Action.print Msg.forkFail], 1)
    else
      some ([], 0)

/-- Exit code of a terminated run. -/
def exitOf (r : Option (List Action × Nat)) : Option Nat := r.map Prod.snd

/-- Whether a terminated run performed the action `a`. -/
def performs (r : Option (List Action × Nat)) (a : Action) : Bool :=
  match r with
  | some (tr, _) => decide (a ∈ tr)
  | none => false

/-- Number of `wait` calls a terminated run performed. -/
def waitCount (r : Option (List Action × Nat)) : Option Nat :=
  r.map fun p => (p.1.filter fun a => decide (a = Action.wait)).length

/-- Fuel-indexed splitting of a byte list into `BLOCK_SIZE`-sized chunks;
the fuel only serves to make the recursion structural. -/
def chunksOfF : Nat → List Nat → List (List Nat)
  | _, [] => []
  | 0, _ :: _ => []
  | fuel + 1, b :: tl =>
    (b :: tl).take BLOCK_SIZE :: chunksOfF fuel ((b :: tl).drop BLOCK_SIZE)

/-- The successive blocks a sequence of full `read`s of `BLOCK_SIZE` bytes
delivers from a source of the given content: chunks of `BLOCK_SIZE` bytes,
the last one possibly shorter. -/
def chunksOf (bs : List Nat) : List (List Nat) := chunksOfF bs.length bs

/-- The `read` outcomes produced by a source file with the given content when
every read of the copy loop returns as much as is available, up to
`BLOCK_SIZE` bytes: the chunks, then the terminal zero-byte read. -/
def fileReads (data : List Nat) : List ReadResult :=
  (chunksOf data).map ReadResult.ok ++ [ReadResult.ok []]

theorem chunksOfF_nil (fuel : Nat) : chunksOfF fuel [] = [] := by
  cases fuel <;> rfl

theorem chunksOfF_congr (f1 f2 : Nat) (bs : List Nat)
    (h1 : bs.length ≤ f1) (h2 : bs.length ≤ f2) :
    chunksOfF f1 bs = chunksOfF f2 bs := by
  induction f1 generalizing f2 bs with
  | zero =>
    have hbs : bs = [] := by
      cases bs with
      | nil => rfl
      | cons b tl => simp at h1
    subst hbs
    simp [chunksOfF_nil]
  | succ n ih =>
    cases bs with
    | nil => simp [chunksOfF_nil]
    | cons b tl =>
      cases f2 with
      | zero => simp at h2
      | succ m =>
        simp only [chunksOfF]
        congr 1
        apply ih
        · simp only [List.length_drop, List.length_cons, BLOCK_SIZE]
          simp only [List.length_cons] at h1
          omega
        · simp only [List.length_drop, List.length_cons, BLOCK_SIZE]
          simp only [List.length_cons] at h2
          omega

theorem chunksOf_cons (bs : List Nat) (h : bs ≠ []) :
    chunksOf bs = bs.take BLOCK_SIZE :: chunksOf (bs.drop BLOCK_SIZE) := by
  cases bs with
  | nil => exact absurd rfl h
  | cons b tl =>
    show chunksOfF (b :: tl).length (b :: tl) = _
    rw [List.length_cons]
    simp only [chunksOfF]
    congr 1
    apply chunksOfF_congr
    · simp only [List.length_drop, List.length_cons, BLOCK_SIZE]
      omega
    · exact le_rfl

/-- Induction principle following the recursion of `chunksOf`. -/
theorem chunks_rec {motive : List Nat → Prop} (base : motive [])
    (step : ∀ bs : List Nat, bs ≠ [] → motive (bs.drop BLOCK_SIZE) → motive bs)
    (bs : List Nat) : motive bs := by
  have H : ∀ n (bs : List Nat), bs.length ≤ n → motive bs := by
    intro n
    induction n with
    | zero =>
      intro bs hlen
      have hbs : bs = [] := by
        cases bs with
        | nil => rfl
        | cons b tl => simp at hlen
      simpa [hbs] using base
    | succ n ih =>
      intro bs hlen
      by_cases hbs : bs = []
      · simpa [hbs] using base
      · refine step bs hbs (ih _ ?_)
        have hpos : 0 < bs.length := List.length_pos.mpr hbs
        simp only [List.length_drop, BLOCK_SIZE]
        omega
  exact H bs.length bs le_rfl

theorem chunksOf_mem (bs : List Nat) :
    ∀ b ∈ chunksOf bs, 0 < b.length ∧ b.length ≤ BLOCK_SIZE := by
  induction bs using chunks_rec with
  | base => simp [chunksOf, chunksOfF_nil]
  | step bs hbs ih =>
    rw [chunksOf_cons bs hbs]
    intro b hb
    rcases List.mem_cons.mp hb with hb | hb
    · subst hb
      have hpos : 0 < bs.length := List.length_pos.mpr hbs
      constructor
      · simp only [List.length_take, BLOCK_SIZE] at *
        omega
      · simp only [List.length_take, BLOCK_SIZE]
        omega
    · exact ih b hb

theorem chunksOf_flatten (bs : List Nat) : (chunksOf bs).flatten = bs := by
  induction bs using chunks_rec with
  | base => rfl
  | step bs hbs ih =>
    rw [chunksOf_cons bs hbs]
    simp [ih]

theorem chunksOf_length (bs : List Nat) :
    (chunksOf bs).length = (bs.length + (BLOCK_SIZE - 1)) / BLOCK_SIZE := by
  induction bs using chunks_rec with
  | base => rfl
  | step bs hbs ih =>
    rw [chunksOf_cons bs hbs]
    have hpos : 0 < bs.length := List.length_pos.mpr hbs
    simp only [List.length_cons, ih, List.length_drop, BLOCK_SIZE] at *
    omega

theorem chunksOf_ne_nil (bs : List Nat) (h : bs ≠ []) : chunksOf bs ≠ [] := by
  rw [chunksOf_cons bs h]
  exact List.cons_ne_nil _ _

theorem chunksOf_lastLen (bs : List Nat) (h : bs ≠ []) :
    ((chunksOf bs).getLast?).map List.length =
      some (if bs.length % BLOCK_SIZE = 0 then BLOCK_SIZE else bs.length % BLOCK_SIZE) := by
  induction bs using chunks_rec with
  | base => exact absurd rfl h
  | step bs hbs ih =>
    rw [chunksOf_cons bs hbs]
    have hpos : 0 < bs.length := List.length_pos.mpr hbs
    by_cases hd : bs.drop BLOCK_SIZE = []
    · have hle : bs.length ≤ BLOCK_SIZE := by
        have := congrArg List.length hd
        simp only [List.length_drop, List.length_nil] at this
        simp only [BLOCK_SIZE] at *
        omega
      rw [hd]
      show (some (bs.take BLOCK_SIZE)).map List.length = _
      have htake : (bs.take BLOCK_SIZE).length = bs.length := by
        simp only [List.length_take]
        omega
      rw [Option.map_some']
      rw [htake]
      congr 1
      simp only [BLOCK_SIZE] at *
      split <;> omega
    · have hgt : BLOCK_SIZE < bs.length := by
        have : 0 < (bs.drop BLOCK_SIZE).length := List.length_pos.mpr hd
        simp only [List.length_drop] at this
        omega
      obtain ⟨c, cs, hcc⟩ : ∃ c cs, chunksOf (bs.drop BLOCK_SIZE) = c :: cs := by
        cases hcs : chunksOf (bs.drop BLOCK_SIZE) with
        | nil => exact absurd hcs (chunksOf_ne_nil _ hd)
        | cons c cs => exact ⟨c, cs, rfl⟩
      rw [hcc, List.getLast?_cons_cons, ← hcc, ih hd]
      have hmod : (bs.drop BLOCK_SIZE).length % BLOCK_SIZE = bs.length % BLOCK_SIZE := by
        simp only [List.length_drop, BLOCK_SIZE] at *
        omega
      rw [hmod]

theorem copy_ok_blocks (pid : Nat) (blocks : List (List Nat)) (rest : List ReadResult)
    (hpos : ∀ b ∈ blocks, 0 < b.length ∧ b.length ≤ BLOCK_SIZE) :
    copy pid (blocks.map ReadResult.ok ++ ReadResult.ok [] :: rest) =
      some ⟨0, blocks.map fun b => (pid, b.length), blocks⟩ := by
  induction blocks with
  | nil => simp [copy]
  | cons b bl ih =>
    obtain ⟨h1, h2⟩ := hpos b (List.mem_cons_self b bl)
    simp only [List.map_cons, List.cons_append, copy, if_pos h1, if_pos h2, List.append_eq,
      ih fun x hx => hpos x (List.mem_cons_of_mem b hx)]
    rfl

theorem copy_err_blocks (pid : Nat) (blocks : List (List Nat)) (rest : List ReadResult)
    (e : Int) (he : e ≤ 0)
    (hpos : ∀ b ∈ blocks, 0 < b.length ∧ b.length ≤ BLOCK_SIZE) :
    copy pid (blocks.map ReadResult.ok ++ ReadResult.err e :: rest) =
      some ⟨e, blocks.map fun b => (pid, b.length), blocks⟩ := by
  induction blocks with
  | nil =>
    simp only [List.map_nil, List.nil_append, copy, if_neg (by omega : ¬ 0 < e)]
  | cons b bl ih =>
    obtain ⟨h1, h2⟩ := hpos b (List.mem_cons_self b bl)
    simp only [List.map_cons, List.cons_append, copy, if_pos h1, if_pos h2, List.append_eq,
      ih fun x hx => hpos x (List.mem_cons_of_mem b hx)]
    rfl

theorem getLast?_map_length (l : List (List Nat)) :
    ((l.map fun b => ((1 : Nat), b.length)).getLast?).map Prod.snd =
      (l.getLast?).map List.length := by
  induction l with
  | nil => rfl
  | cons b bl ih =>
    cases bl with
    | nil => rfl
    | cons c cl =>
      simp only [List.map_cons, List.getLast?_cons_cons] at *
      exact ih

/-- Claim C3: for every source and destination stream, the copy loop stops
and reports success (returns the non-negative value 0) exactly at a zero-byte
read, and at a negative read it stops immediately and returns that negative
value; in both cases the blocks written to the destination are exactly the
blocks read before the terminal read, so no further write follows an error. -/
theorem copy_stops_on_zero_or_error (pid : Nat) (blocks : List (List Nat))
    (rest : List ReadResult) (e : Int)
    (hpos : ∀ b ∈ blocks, 0 < b.length ∧ b.length ≤ BLOCK_SIZE) (he : e < 0) :
    copy pid (blocks.map ReadResult.ok ++ ReadResult.ok [] :: rest) =
      some ⟨0, blocks.map fun b => (pid, b.length), blocks⟩ ∧
    copy pid (blocks.map ReadResult.ok ++ ReadResult.err e :: rest) =
      some ⟨e, blocks.map fun b => (pid, b.length), blocks⟩ :=
  ⟨copy_ok_blocks pid blocks rest hpos,
   copy_err_blocks pid blocks rest e (le_of_lt he) hpos⟩

theorem copy_stops_on_zero_or_error_witness :
    copy 1 ([[5, 6, 7]].map ReadResult.ok ++ ReadResult.ok [] :: [ReadResult.ok [9]]) =
      some ⟨0, [(1, 3)], [[5, 6, 7]]⟩ ∧
    copy 1 ([[5, 6, 7]].map ReadResult.ok ++ ReadResult.err (-1) :: [ReadResult.ok [9]]) =
      some ⟨-1, [(1, 3)], [[5, 6, 7]]⟩ :=
  copy_stops_on_zero_or_error 1 [[5, 6, 7]] [ReadResult.ok [9]] (-1)
    (by decide) (by decide)

/-- Claim C4: every positive read writes exactly the bytes read and emits one
progress notification carrying the tag and the byte count (the copy result
lists one notification and one written block per chunk, and the written
blocks concatenate back to the source bytes); for a source of N bytes
delivered in full `BLOCK_SIZE` reads the Reader emits `⌈N/BLOCK_SIZE⌉`
notifications (zero for N = 0), and the last notification's byte count is
`N % BLOCK_SIZE` (`BLOCK_SIZE` if N is a positive exact multiple). -/
theorem reader_progress_notifications (data : List Nat) :
    copy 1 (fileReads data) =
      some ⟨0, (chunksOf data).map fun b => (1, b.length), chunksOf data⟩ ∧
    (chunksOf data).flatten = data ∧
    ((chunksOf data).map fun b => ((1 : Nat), b.length)).length =
      (data.length + (BLOCK_SIZE - 1)) / BLOCK_SIZE ∧
    (data ≠ [] →
      (((chunksOf data).map fun b => ((1 : Nat), b.length)).getLast?).map Prod.snd =
        some (if data.length % BLOCK_SIZE = 0 then BLOCK_SIZE
              else data.length % BLOCK_SIZE)) := by
  refine ⟨?_, chunksOf_flatten data, ?_, ?_⟩
  · unfold fileReads
    exact copy_ok_blocks 1 (chunksOf data) [] (chunksOf_mem data)
  · rw [List.length_map]
    exact chunksOf_length data
  · intro h
    rw [getLast?_map_length]
    exact chunksOf_lastLen data h

theorem reader_progress_notifications_witness :
    copy 1 (fileReads [4, 5]) = some ⟨0, [(1, 2)], [[4, 5]]⟩ ∧
    (((chunksOf [4, 5]).map fun b => ((1 : Nat), b.length)).getLast?).map Prod.snd =
      some 2 := by
  refine ⟨(reader_progress_notifications [4, 5]).1, ?_⟩
  have h := (reader_progress_notifications [4, 5]).2.2.2 (by decide)
  simpa using h

/-- Claim C10: a run of `copy` that terminates without a read error returns
0 (the terminal zero-byte read), never the size of the last data block; and
the worker's success path (exit code 0) is taken exactly when the final read
returned 0: the Reader exits 0 on a zero-read terminal and 2 on a negative
terminal, however many bytes were copied before. -/
theorem copy_success_returns_zero (env : Env) (blocks : List (List Nat)) (e : Int)
    (hpos : ∀ b ∈ blocks, 0 < b.length ∧ b.length ≤ BLOCK_SIZE) (he : e < 0)
    (hp : env.pipeOk = true) (h1 : env.fork1 = 0) (ho : env.srcOpen = none) :
    (∀ res, copy 1 (blocks.map ReadResult.ok ++ [ReadResult.ok []]) = some res →
      res.retval = 0) ∧
    (env.reads = blocks.map ReadResult.ok ++ [ReadResult.ok []] →
      exitOf (mainImpl env) = some 0) ∧
    (env.reads = blocks.map ReadResult.ok ++ [ReadResult.err e] →
      exitOf (mainImpl env) = some 2) := by
  have hm : mainImpl env = readerBody env := by
    simp [mainImpl, hp, h1]
  refine ⟨?_, ?_, ?_⟩
  · intro res hres
    rw [copy_ok_blocks 1 blocks [] hpos] at hres
    cases hres
    rfl
  · intro hreads
    rw [hm]
    unfold readerBody
    rw [ho, hreads, copy_ok_blocks 1 blocks [] hpos]
    rfl
  · intro hreads
    rw [hm]
    unfold readerBody
    rw [ho, hreads, copy_err_blocks 1 blocks [] e (le_of_lt he) hpos]
    simp only [exitOf]
    rw [if_pos he]
    rfl

theorem copy_success_returns_zero_witness :
    exitOf (mainImpl ⟨true, 0, 0, "s", "d", none, none,
        [ReadResult.ok [1], ReadResult.ok []], "E", (0, 0), (0, 0)⟩) = some 0 :=
  (copy_success_returns_zero
      ⟨true, 0, 0, "s", "d", none, none,
        [ReadResult.ok [1], ReadResult.ok []], "E", (0, 0), (0, 0)⟩
      [[1]] (-1) (by decide) (by decide) rfl rfl rfl).2.1 rfl

/-- Claim C1 (refuted by the code): the claim says that when the first fork
fails the program reports a failure and exits with code 1 with no worker body
run.  Instead, because `child_2` is initialized to 0 and only assigned when
`child_1 > 0`, a parent whose first fork returns -1 matches the `child_2 == 0`
branch and runs the Writer body — here opening the destination and exiting 0 —
so the fork error handler is unreachable on this path. -/
theorem first_fork_failure_enters_writer :
    mainImpl ⟨true, -1, 99, "src.txt", "dest.txt", none, none,
        [ReadResult.ok []], "E", (0, 0), (0, 0)⟩ =
      some ([Action.closePipe PipeEnd.writeEnd, Action.openDest,
             Action.closeFile, Action.closePipe PipeEnd.readEnd], 0) := rfl

/-- Claim C5: when the first spawn succeeds and the second fails, the
supervisor prints the spawn failure message, exits with code 1, and never
calls `wait` for the already running first worker. -/
theorem second_fork_failure_aborts_without_wait (env : Env)
    (hp : env.pipeOk = true) (h1 : 0 < env.fork1) (h2 : env.fork2 < 0) :
    mainImpl env = some ([Action.print Msg.forkFail], 1) ∧
    performs (mainImpl env) Action.wait = false := by
  have h1' : ¬ env.fork1 = 0 := by omega
  have h2' : ¬ 0 < env.fork2 := by omega
  have h2'' : ¬ env.fork2 = 0 := by omega
  have hm : mainImpl env = some ([Action.print Msg.forkFail], 1) := by
    simp [mainImpl, hp, h1, h2, h1', h2', h2'']
  exact ⟨hm, by rw [hm]; rfl⟩

theorem second_fork_failure_aborts_without_wait_witness :
    mainImpl ⟨true, 5, -1, "s", "d", none, none, [], "E", (0, 0), (0, 0)⟩ =
      some ([Action.print Msg.forkFail], 1) ∧
    performs (mainImpl ⟨true, 5, -1, "s", "d", none, none, [], "E", (0, 0), (0, 0)⟩)
      Action.wait = false :=
  second_fork_failure_aborts_without_wait
    ⟨true, 5, -1, "s", "d", none, none, [], "E", (0, 0), (0, 0)⟩
    rfl (by decide) (by decide)

/-- Claim C6: on file-open failure each worker releases the pipe endpoint it
holds (the Reader its write end, the Writer its read end — each closed the
other end on entry), prints a descriptive error naming the file and the OS
error text, and exits with code 1. -/
theorem worker_open_failure (envR envW : Env) (eR eW : String)
    (hpR : envR.pipeOk = true) (h1R : envR.fork1 = 0) (hoR : envR.srcOpen = some eR)
    (hpW : envW.pipeOk = true) (h1W : 0 < envW.fork1) (h2W : envW.fork2 = 0)
    (hoW : envW.destOpen = some eW) :
    mainImpl envR = some ([Action.closePipe PipeEnd.readEnd,
        Action.print (Msg.openSrcFail envR.srcPath eR),
        Action.closePipe PipeEnd.writeEnd], 1) ∧
    mainImpl envW = some ([Action.closePipe PipeEnd.writeEnd,
        Action.print (Msg.openDestFail envW.destPath eW),
        Action.closePipe PipeEnd.readEnd], 1) := by
  have h1W' : ¬ envW.fork1 = 0 := by omega
  constructor
  · have hm : mainImpl envR = readerBody envR := by simp [mainImpl, hpR, h1R]
    rw [hm]
    unfold readerBody
    rw [hoR]
  · have hm : mainImpl envW = writerBody envW := by
      simp [mainImpl, hpW, h1W, h2W, h1W']
    rw [hm]
    unfold writerBody
    rw [hoW]

theorem worker_open_failure_witness :
    mainImpl ⟨true, 0, 0, "in.txt", "out.txt", some "No such file or directory",
        none, [], "E", (0, 0), (0, 0)⟩ =
      some ([Action.closePipe PipeEnd.readEnd,
        Action.print (Msg.openSrcFail "in.txt" "No such file or directory"),
        Action.closePipe PipeEnd.writeEnd], 1) ∧
    mainImpl ⟨true, 8, 0, "in.txt", "out.txt", none,
        some "Permission denied", [], "E", (0, 0), (0, 0)⟩ =
      some ([Action.closePipe PipeEnd.writeEnd,
        Action.print (Msg.openDestFail "out.txt" "Permission denied"),
        Action.closePipe PipeEnd.readEnd], 1) :=
  worker_open_failure
    ⟨true, 0, 0, "in.txt", "out.txt", some "No such file or directory",
      none, [], "E", (0, 0), (0, 0)⟩
    ⟨true, 8, 0, "in.txt", "out.txt", none,
      some "Permission denied", [], "E", (0, 0), (0, 0)⟩
    "No such file or directory" "Permission denied"
    rfl rfl rfl rfl (by decide) rfl rfl

/-- Claim C7: a worker exits with code 2 when `copy` returns a negative value
and with code 0 when it returns a non-negative one, and on both paths it
closes both its file handle and the pipe endpoint it holds. -/
theorem worker_copy_exit (envR envW : Env) (resR resW : CopyResult)
    (hpR : envR.pipeOk = true) (h1R : envR.fork1 = 0) (hoR : envR.srcOpen = none)
    (hcR : copy 1 envR.reads = some resR)
    (hpW : envW.pipeOk = true) (h1W : 0 < envW.fork1) (h2W : envW.fork2 = 0)
    (hoW : envW.destOpen = none) (hcW : copy 2 envW.reads = some resW) :
    exitOf (mainImpl envR) = some (if resR.retval < 0 then 2 else 0) ∧
    performs (mainImpl envR) Action.closeFile = true ∧
    performs (mainImpl envR) (Action.closePipe PipeEnd.writeEnd) = true ∧
    exitOf (mainImpl envW) = some (if resW.retval < 0 then 2 else 0) ∧
    performs (mainImpl envW) Action.closeFile = true ∧
    performs (mainImpl envW) (Action.closePipe PipeEnd.readEnd) = true := by
  have h1W' : ¬ envW.fork1 = 0 := by omega
  have hmR : mainImpl envR = readerBody envR := by simp [mainImpl, hpR, h1R]
  have hmW : mainImpl envW = writerBody envW := by
    simp [mainImpl, hpW, h1W, h2W, h1W']
  have hbR : readerBody envR =
      (if resR.retval < 0 then
        some ([Action.closePipe PipeEnd.readEnd, Action.openSrc] ++
              progressActions resR ++
              [Action.print (Msg.copyFail envR.copyErr), Action.closeFile,
               Action.closePipe PipeEnd.writeEnd], 2)
      else
        some ([Action.closePipe PipeEnd.readEnd, Action.openSrc] ++
              progressActions resR ++
              [Action.closeFile, Action.closePipe PipeEnd.writeEnd], 0)) := by
    unfold readerBody
    rw [hoR, hcR]
  have hbW : writerBody envW =
      (if resW.retval < 0 then
        some ([Action.closePipe PipeEnd.writeEnd, Action.openDest] ++
              progressActions resW ++
              [Action.print (Msg.copyFail envW.copyErr), Action.closeFile,
               Action.closePipe PipeEnd.readEnd], 2)
      else
        some ([Action.closePipe PipeEnd.writeEnd, Action.openDest] ++
              progressActions resW ++
              [Action.closeFile, Action.closePipe PipeEnd.readEnd], 0)) := by
    unfold writerBody
    rw [hoW, hcW]
  rw [hmR, hmW, hbR, hbW]
  by_cases hr : resR.retval < 0 <;> by_cases hw : resW.retval < 0 <;>
    simp [hr, hw, exitOf, performs]

theorem worker_copy_exit_witness :
    exitOf (mainImpl ⟨true, 0, 0, "s", "d", none, none,
        [ReadResult.ok []], "E", (0, 0), (0, 0)⟩) = some 0 ∧
    performs (mainImpl ⟨true, 0, 0, "s", "d", none, none,
        [ReadResult.ok []], "E", (0, 0), (0, 0)⟩) Action.closeFile = true ∧
    performs (mainImpl ⟨true, 0, 0, "s", "d", none, none,
        [ReadResult.ok []], "E", (0, 0), (0, 0)⟩)
      (Action.closePipe PipeEnd.writeEnd) = true ∧
    exitOf (mainImpl ⟨true, 7, 0, "s", "d", none, none,
        [ReadResult.err (-1)], "E", (0, 0), (0, 0)⟩) = some 2 ∧
    performs (mainImpl ⟨true, 7, 0, "s", "d", none, none,
        [ReadResult.err (-1)], "E", (0, 0), (0, 0)⟩) Action.closeFile = true ∧
    performs (mainImpl ⟨true, 7, 0, "s", "d", none, none,
        [ReadResult.err (-1)], "E", (0, 0), (0, 0)⟩)
      (Action.closePipe PipeEnd.readEnd) = true :=
  worker_copy_exit
    ⟨true, 0, 0, "s", "d", none, none, [ReadResult.ok []], "E", (0, 0), (0, 0)⟩
    ⟨true, 7, 0, "s", "d", none, none, [ReadResult.err (-1)], "E", (0, 0), (0, 0)⟩
    ⟨0, [], []⟩ ⟨-1, [], []⟩
    rfl rfl rfl rfl rfl (by decide) rfl rfl rfl

/-- Claim C2: when both spawns succeed and both workers are waited for, the
final exit code is 0 when both workers exited with status 0 and 2 when any
worker's exit status is nonzero, and the aggregate success line is printed
exactly when both per-worker exit statuses are 0 (the failure aggregate line
exactly otherwise). -/
theorem supervisor_exit_aggregation (env : Env) (s1 s2 : Nat)
    (hp : env.pipeOk = true) (h1 : 0 < env.fork1) (h2 : 0 < env.fork2)
    (hs1 : s1 < 256) (hs2 : s2 < 256)
    (hw1 : env.wait1.2 = 256 * s1) (hw2 : env.wait2.2 = 256 * s2) :
    exitOf (mainImpl env) = some (if s1 = 0 ∧ s2 = 0 then 0 else 2) ∧
    (performs (mainImpl env) (Action.print Msg.allOk) = true ↔ (s1 = 0 ∧ s2 = 0)) ∧
    (performs (mainImpl env) (Action.print Msg.someBad) = true ↔ ¬(s1 = 0 ∧ s2 = 0)) := by
  have hm : mainImpl env = some (supervisorBody env.fork1 env.wait1 env.wait2) := by
    simp [mainImpl, hp, h1, h2]
  have e1 : wexitstatus env.wait1.2 = s1 := by
    rw [hw1]; unfold wexitstatus; omega
  have e2 : wexitstatus env.wait2.2 = s2 := by
    rw [hw2]; unfold wexitstatus; omega
  rw [hm]
  simp only [supervisorBody, reapMsg, e1, e2]
  by_cases hA : s1 = 0 <;> by_cases hB : s2 = 0 <;>
    simp [hA, hB, exitOf, performs]

theorem supervisor_exit_aggregation_witness :
    exitOf (mainImpl ⟨true, 5, 6, "s", "d", none, none, [], "E",
        (5, 0), (6, 768)⟩) = some 2 ∧
    (performs (mainImpl ⟨true, 5, 6, "s", "d", none, none, [], "E",
        (5, 0), (6, 768)⟩) (Action.print Msg.allOk) = true ↔
      ((0 : Nat) = 0 ∧ (3 : Nat) = 0)) ∧
    (performs (mainImpl ⟨true, 5, 6, "s", "d", none, none, [], "E",
        (5, 0), (6, 768)⟩) (Action.print Msg.someBad) = true ↔
      ¬((0 : Nat) = 0 ∧ (3 : Nat) = 0)) :=
  supervisor_exit_aggregation
    ⟨true, 5, 6, "s", "d", none, none, [], "E", (5, 0), (6, 768)⟩
    0 3 rfl (by decide) (by decide) (by decide) (by decide) rfl rfl

/-- Claim C9: the supervisor performs exactly two waits, one per worker, and
attributes each termination record by process identity, not arrival order:
whatever pids the two waits return, the per-worker line printed for each
record carries ordinal 1 exactly when the reaped pid equals worker 1's pid
and ordinal 2 otherwise, and the exit code reflects the accumulated error
flag over both records. -/
theorem supervisor_identity_attribution (env : Env) (d1 d2 : Int) (r1 r2 : Nat)
    (hp : env.pipeOk = true) (h1 : 0 < env.fork1) (h2 : 0 < env.fork2)
    (hw1 : env.wait1 = (d1, r1)) (hw2 : env.wait2 = (d2, r2)) :
    waitCount (mainImpl env) = some 2 ∧
    performs (mainImpl env)
      (Action.print (if wexitstatus r1 = 0
        then Msg.childOk (if env.fork1 = d1 then 1 else 2)
        else Msg.childBad (if env.fork1 = d1 then 1 else 2) (wexitstatus r1))) = true ∧
    performs (mainImpl env)
      (Action.print (if wexitstatus r2 = 0
        then Msg.childOk (if env.fork1 = d2 then 1 else 2)
        else Msg.childBad (if env.fork1 = d2 then 1 else 2) (wexitstatus r2))) = true ∧
    exitOf (mainImpl env) =
      some (if wexitstatus r1 = 0 ∧ wexitstatus r2 = 0 then 0 else 2) := by
  have hm : mainImpl env = some (supervisorBody env.fork1 env.wait1 env.wait2) := by
    simp [mainImpl, hp, h1, h2]
  rw [hm, hw1, hw2]
  simp only [supervisorBody, reapMsg]
  by_cases hA : wexitstatus r1 = 0 <;> by_cases hB : wexitstatus r2 = 0 <;>
    simp [hA, hB, waitCount, performs, exitOf, List.filter]

theorem supervisor_identity_attribution_witness :
    waitCount (mainImpl ⟨true, 5, 6, "s", "d", none, none, [], "E",
        (6, 256), (5, 0)⟩) = some 2 ∧
    performs (mainImpl ⟨true, 5, 6, "s", "d", none, none, [], "E",
        (6, 256), (5, 0)⟩) (Action.print (Msg.childBad 2 1)) = true ∧
    performs (mainImpl ⟨true, 5, 6, "s", "d", none, none, [], "E",
        (6, 256), (5, 0)⟩) (Action.print (Msg.childOk 1)) = true ∧
    exitOf (mainImpl ⟨true, 5, 6, "s", "d", none, none, [], "E",
        (6, 256), (5, 0)⟩) = some 2 :=
  supervisor_identity_attribution
    ⟨true, 5, 6, "s", "d", none, none, [], "E", (6, 256), (5, 0)⟩
    6 5 256 0 rfl (by decide) (by decide) rfl rfl

/-- Claim C8: endpoint-ownership discipline — the Reader's first action is
closing the pipe's read end, the Writer's first action is closing the pipe's
write end, and on the path where both spawns succeed the Supervisor's first
two actions close both of its pipe endpoints, before any wait. -/
theorem pipe_endpoint_discipline (envR envW envS : Env)
    (trR trW trS : List Action) (cR cW cS : Nat)
    (hpR : envR.pipeOk = true) (h1R : envR.fork1 = 0)
    (hmR : mainImpl envR = some (trR, cR))
    (hpW : envW.pipeOk = true) (h1W : 0 < envW.fork1) (h2W : envW.fork2 = 0)
    (hmW : mainImpl envW = some (trW, cW))
    (hpS : envS.pipeOk = true) (h1S : 0 < envS.fork1) (h2S : 0 < envS.fork2)
    (hmS : mainImpl envS = some (trS, cS)) :
    trR.head? = some (Action.closePipe PipeEnd.readEnd) ∧
    trW.head? = some (Action.closePipe PipeEnd.writeEnd) ∧
    trS.take 2 = [Action.closePipe PipeEnd.readEnd,
                  Action.closePipe PipeEnd.writeEnd] ∧
    Action.wait ∉ trS.take 2 := by
  have h1W' : ¬ envW.fork1 = 0 := by omega
  have hS : trS.take 2 = [Action.closePipe PipeEnd.readEnd,
      Action.closePipe PipeEnd.writeEnd] := by
    have hm : mainImpl envS = some (supervisorBody envS.fork1 envS.wait1 envS.wait2) := by
      simp [mainImpl, hpS, h1S, h2S]
    rw [hm] at hmS
    simp only [supervisorBody, Option.some.injEq, Prod.mk.injEq] at hmS
    obtain ⟨htr, -⟩ := hmS
    rw [← htr]
    rfl
  refine ⟨?_, ?_, hS, by rw [hS]; decide⟩
  · have hm : mainImpl envR = readerBody envR := by simp [mainImpl, hpR, h1R]
    rw [hm] at hmR
    unfold readerBody at hmR
    cases ho : envR.srcOpen with
    | some e =>
      rw [ho] at hmR
      simp only [Option.some.injEq, Prod.mk.injEq] at hmR
      obtain ⟨htr, -⟩ := hmR
      rw [← htr]
      rfl
    | none =>
      rw [ho] at hmR
      cases hc : copy 1 envR.reads with
      | none =>
        rw [hc] at hmR
        exact absurd hmR (by simp)
      | some res =>
        rw [hc] at hmR
        have hmR2 : (if res.retval < 0 then
            some ([Action.closePipe PipeEnd.readEnd, Action.openSrc] ++
                progressActions res ++
                [Action.print (Msg.copyFail envR.copyErr), Action.closeFile,
                 Action.closePipe PipeEnd.writeEnd], 2)
          else
            some ([Action.closePipe PipeEnd.readEnd, Action.openSrc] ++
                progressActions res ++
                [Action.closeFile, Action.closePipe PipeEnd.writeEnd], 0)) =
            some (trR, cR) := hmR
        by_cases hr : res.retval < 0
        · rw [if_pos hr] at hmR2
          simp only [Option.some.injEq, Prod.mk.injEq] at hmR2
          obtain ⟨htr, -⟩ := hmR2
          rw [← htr]
          rfl
        · rw [if_neg hr] at hmR2
          simp only [Option.some.injEq, Prod.mk.injEq] at hmR2
          obtain ⟨htr, -⟩ := hmR2
          rw [← htr]
          rfl
  · have hm : mainImpl envW = writerBody envW := by
      simp [mainImpl, hpW, h1W, h2W, h1W']
    rw [hm] at hmW
    unfold writerBody at hmW
    cases ho : envW.destOpen with
    | some e =>
      rw [ho] at hmW
      simp only [Option.some.injEq, Prod.mk.injEq] at hmW
      obtain ⟨htr, -⟩ := hmW
      rw [← htr]
      rfl
    | none =>
      rw [ho] at hmW
      cases hc : copy 2 envW.reads with
      | none =>
        rw [hc] at hmW
        exact absurd hmW (by simp)
      | some res =>
        rw [hc] at hmW
        have hmW2 : (if res.retval < 0 then
            some ([Action.closePipe PipeEnd.writeEnd, Action.openDest] ++
                progressActions res ++
                [Action.print (Msg.copyFail envW.copyErr), Action.closeFile,
                 Action.closePipe PipeEnd.readEnd], 2)
          else
            some ([Action.closePipe PipeEnd.writeEnd, Action.openDest] ++
                progressActions res ++
                [Action.closeFile, Action.closePipe PipeEnd.readEnd], 0)) =
            some (trW, cW) := hmW
        by_cases hr : res.retval < 0
        · rw [if_pos hr] at hmW2
          simp only [Option.some.injEq, Prod.mk.injEq] at hmW2
          obtain ⟨htr, -⟩ := hmW2
          rw [← htr]
          rfl
        · rw [if_neg hr] at hmW2
          simp only [Option.some.injEq, Prod.mk.injEq] at hmW2
          obtain ⟨htr, -⟩ := hmW2
          rw [← htr]
          rfl

theorem pipe_endpoint_discipline_witness :
    ([Action.closePipe PipeEnd.readEnd, Action.openSrc, Action.closeFile,
        Action.closePipe PipeEnd.writeEnd] : List Action).head? =
      some (Action.closePipe PipeEnd.readEnd) ∧
    ([Action.closePipe PipeEnd.writeEnd, Action.openDest, Action.closeFile,
        Action.closePipe PipeEnd.readEnd] : List Action).head? =
      some (Action.closePipe PipeEnd.writeEnd) ∧
    ([Action.closePipe PipeEnd.readEnd, Action.closePipe PipeEnd.writeEnd,
        Action.wait, Action.print (Msg.childOk 1), Action.wait,
        Action.print (Msg.childOk 2), Action.print Msg.allOk] : List Action).take 2 =
      [Action.closePipe PipeEnd.readEnd, Action.closePipe PipeEnd.writeEnd] ∧
    Action.wait ∉ ([Action.closePipe PipeEnd.readEnd,
        Action.closePipe PipeEnd.writeEnd, Action.wait,
        Action.print (Msg.childOk 1), Action.wait, Action.print (Msg.childOk 2),
        Action.print Msg.allOk] : List Action).take 2 :=
  pipe_endpoint_discipline
    ⟨true, 0, 0, "s", "d", none, none, [ReadResult.ok []], "E", (0, 0), (0, 0)⟩
    ⟨true, 7, 0, "s", "d", none, none, [ReadResult.ok []], "E", (0, 0), (0, 0)⟩
    ⟨true, 5, 6, "s", "d", none, none, [], "E", (5, 0), (6, 0)⟩
    [Action.closePipe PipeEnd.readEnd, Action.openSrc, Action.closeFile,
      Action.closePipe PipeEnd.writeEnd]
    [Action.closePipe PipeEnd.writeEnd, Action.openDest, Action.closeFile,
      Action.closePipe PipeEnd.readEnd]
    [Action.closePipe PipeEnd.readEnd, Action.closePipe PipeEnd.writeEnd,
      Action.wait, Action.print (Msg.childOk 1), Action.wait,
      Action.print (Msg.childOk 2), Action.print Msg.allOk]
    0 0 0
    rfl rfl rfl rfl (by decide) rfl rfl rfl (by decide) (by decide) rfl

end PipeCopy
